import Mathlib

/-!
Verification of the MLS (RFC 9420) engine of this repository against its
specification.  The Rust sources are shallowly embedded: byte strings are
`List Nat`, fallible operations return `Except String`, and the pluggable
cipher-suite capability is a structure of fallible functions, exactly as the
engine consumes it through the `CipherSuiteProvider` trait.
-/

namespace Mls

/-- Byte strings, the universal currency of the engine. -/
abbrev Bytes := List Nat

/-- ASCII bytes of a label string (all engine labels are ASCII). -/
def strBytes (s : String) : Bytes :=
  s.data.map Char.toNat

/-! ## Wire codec

Modelled from the spec: the `aws_mls_codec` crate is not under `src/`.  The
spec fixes the format: "Framing follows MLS RFC 9420 byte-for-byte; all
length prefixes are big-endian variable-length octet strings unless the
subfield is fixed-size".  RFC 9420 variable-length integers use 1, 2 or 4
bytes and cannot represent lengths of `2^30` or more, which is the codec's
failure mode. -/

/-- RFC 9420 variable-length integer: 1 byte below `2^6`, 2 bytes below
`2^14`, 4 bytes below `2^30`, error otherwise. -/
def encodeVarint (n : Nat) : Except String Bytes :=
  if n < 64 then .ok [n]
  else if n < 16384 then .ok [64 + n / 256, n % 256]
  else if n < 1073741824 then
    .ok [128 + n / 16777216, n / 65536 % 256, n / 256 % 256, n % 256]
  else .error "varint out of range"

/-- Variable-length byte vector: varint length then the raw bytes. -/
def encodeByteVec (b : Bytes) : Except String Bytes :=
  (encodeVarint b.length).map (· ++ b)

/-- Fixed-size big-endian 16-bit integer. -/
def encodeU16 (n : Nat) : Bytes :=
  [n / 256 % 256, n % 256]

/-- Fixed-size big-endian 64-bit integer. -/
def encodeU64 (n : Nat) : Bytes :=
  [n / 72057594037927936 % 256, n / 281474976710656 % 256,
   n / 1099511627776 % 256, n / 4294967296 % 256,
   n / 16777216 % 256, n / 65536 % 256, n / 256 % 256, n % 256]

/-! ## Group context

The spec defines the group context as the tuple `(protocol_version,
cipher_suite, group_id, epoch, tree_hash, confirmed_transcript_hash,
extensions)`; its serialized form is the binding input for KDF-expand and
for all authenticated content. -/

/-- One extension: a 16-bit extension type and opaque data. -/
structure Extension where
  ext_type : Nat
  ext_data : Bytes
deriving Repr, DecidableEq

structure GroupContext where
  protocol_version : Nat
  cipher_suite : Nat
  group_id : Bytes
  epoch : Nat
  tree_hash : Bytes
  confirmed_transcript_hash : Bytes
  extensions : List Extension
deriving Repr, DecidableEq

/-- Modelled from the spec: wire encoding of one extension
(u16 type, variable-length data). -/
def encodeExtension (e : Extension) : Except String Bytes :=
  (encodeByteVec e.ext_data).map (encodeU16 e.ext_type ++ ·)

/-- Modelled from the spec: wire encoding of an extension list — the
concatenated extensions behind one variable-length prefix. -/
def encodeExtensionList (es : List Extension) : Except String Bytes := do
  let body ← es.foldlM (fun acc e => (encodeExtension e).map (acc ++ ·)) []
  encodeByteVec body

/-- Modelled from the spec: `GroupContext::mls_encode_to_vec`, the serialized
group context (the `aws_mls_codec` derive is not under `src/`). -/
def encodeGroupContext (ctx : GroupContext) : Except String Bytes := do
  let gid ← encodeByteVec ctx.group_id
  let th ← encodeByteVec ctx.tree_hash
  let cth ← encodeByteVec ctx.confirmed_transcript_hash
  let exts ← encodeExtensionList ctx.extensions
  pure (encodeU16 ctx.protocol_version ++ encodeU16 ctx.cipher_suite ++ gid ++
        encodeU64 ctx.epoch ++ th ++ cth ++ exts)

/-! ## Cipher-suite capability

The engine consumes primitives through the `CipherSuiteProvider` trait; we
embed it as a structure of fallible byte functions, mirroring the contract
fixed in spec section 6. -/

structure CipherSuiteProvider where
  kdfExtract : Bytes → Bytes → Except String Bytes
  kdfExpand : Bytes → Bytes → Nat → Except String Bytes
  kdfExtractSize : Nat
  hash : Bytes → Except String Bytes
  mac : Bytes → Bytes → Except String Bytes

/-! ## Key schedule (`aws-mls/src/group/key_schedule.rs`) -/

/-- The `Label` struct of `key_schedule.rs`: a u16 length, a label with the
`"MLS 1.0 "` prefix already applied, and a context. -/
structure LabelStruct where
  length : Nat
  label : Bytes
  context : Bytes
deriving Repr, DecidableEq

/-- `Label::new`: the length is a u16 (the Rust `len as u16` cast truncates),
and the label gets the `"MLS 1.0 "` prefix. -/
def LabelStruct.new (length : Nat) (label : String) (context : Bytes) : LabelStruct :=
  { length := length % 65536
    label := strBytes "MLS 1.0 " ++ strBytes label
    context := context }

/-- Wire encoding of `Label` (derived `MlsEncode`: fields in order; the u16
is fixed-size, label and context are variable-length byte vectors). -/
def LabelStruct.encode (l : LabelStruct) : Except String Bytes := do
  let lb ← encodeByteVec l.label
  let cb ← encodeByteVec l.context
  pure (encodeU16 l.length ++ lb ++ cb)

/-- `kdf_expand_with_label`: defaults the length to the KDF extract size,
builds the `Label` info and calls the provider's `kdf_expand`. -/
def kdf_expand_with_label (p : CipherSuiteProvider) (secret : Bytes)
    (label : String) (context : Bytes) (len : Option Nat) : Except String Bytes :=
  let extract_size := p.kdfExtractSize
  let len := len.getD extract_size
  do
    let info ← (LabelStruct.new len label context).encode
    p.kdfExpand secret info len

/-- `kdf_derive_secret`: expand with an empty context and default length. -/
def kdf_derive_secret (p : CipherSuiteProvider) (secret : Bytes)
    (label : String) : Except String Bytes :=
  kdf_expand_with_label p secret label [] none

/-- `get_pre_epoch_secret`: `Extract(joiner_secret, psk_secret)`. -/
def get_pre_epoch_secret (p : CipherSuiteProvider) (psk_secret : Bytes)
    (joiner_secret : Bytes) : Except String Bytes :=
  p.kdfExtract joiner_secret psk_secret

/-- `SecretsProducer::derive`: derive-secret from the epoch secret. -/
def secretsProducerDerive (p : CipherSuiteProvider) (epoch_secret : Bytes)
    (label : String) : Except String Bytes :=
  kdf_derive_secret p epoch_secret label

/-- The `KeySchedule` struct (secret fields only; zeroization is a resource
property outside the shallow embedding). -/
structure KeySchedule where
  exporter_secret : Bytes
  authentication_secret : Bytes
  external_secret : Bytes
  membership_key : Bytes
  init_secret : Bytes
deriving Repr, DecidableEq

/-- `EpochSecrets` (the secret tree is represented by its root secret, the
`"encryption"` derivation that seeds it). -/
structure EpochSecrets where
  resumption_secret : Bytes
  sender_data_secret : Bytes
  secret_tree_root : Bytes
deriving Repr, DecidableEq

structure KeyScheduleDerivationResult where
  key_schedule : KeySchedule
  confirmation_key : Bytes
  joiner_secret : Bytes
  epoch_secrets : EpochSecrets
deriving Repr, DecidableEq

/-- `KeySchedule::from_epoch_secret`: every per-epoch secret is
`DeriveSecret(epoch_secret, label)` for its fixed label. -/
def from_epoch_secret (p : CipherSuiteProvider) (epoch_secret : Bytes) :
    Except String KeyScheduleDerivationResult := do
  let resumption ← secretsProducerDerive p epoch_secret "resumption"
  let sender_data ← secretsProducerDerive p epoch_secret "sender data"
  let encryption ← secretsProducerDerive p epoch_secret "encryption"
  let exporter ← secretsProducerDerive p epoch_secret "exporter"
  let authentication ← secretsProducerDerive p epoch_secret "authentication"
  let external ← secretsProducerDerive p epoch_secret "external"
  let membership ← secretsProducerDerive p epoch_secret "membership"
  let init ← secretsProducerDerive p epoch_secret "init"
  let confirm ← secretsProducerDerive p epoch_secret "confirm"
  pure { key_schedule :=
           { exporter_secret := exporter
             authentication_secret := authentication
             external_secret := external
             membership_key := membership
             init_secret := init }
         confirmation_key := confirm
         joiner_secret := []
         epoch_secrets :=
           { resumption_secret := resumption
             sender_data_secret := sender_data
             secret_tree_root := encryption } }

/-- `KeySchedule::from_joiner`: pre-epoch extract with the PSK secret, then
`ExpandWithLabel(pre_epoch, "epoch", context, Nh)`, then the per-epoch
derivations. -/
def from_joiner (p : CipherSuiteProvider) (joiner_secret : Bytes)
    (context : GroupContext) (psk_secret : Bytes) :
    Except String KeyScheduleDerivationResult := do
  let epoch_seed ← get_pre_epoch_secret p psk_secret joiner_secret
  let ctxBytes ← encodeGroupContext context
  let epoch_secret ← kdf_expand_with_label p epoch_seed "epoch" ctxBytes none
  from_epoch_secret p epoch_secret

/-- `KeySchedule::from_key_schedule`: extract the joiner seed from the prior
init secret and the commit secret, expand the joiner secret over the
serialized context, then continue through `from_joiner`; the joiner secret
is returned in the result for Welcome building. -/
def from_key_schedule (p : CipherSuiteProvider) (last : KeySchedule)
    (commit_secret : Bytes) (context : GroupContext) (psk_secret : Bytes) :
    Except String KeyScheduleDerivationResult := do
  let joiner_seed ← p.kdfExtract last.init_secret commit_secret
  let ctxBytes ← encodeGroupContext context
  let joiner_secret ← kdf_expand_with_label p joiner_seed "joiner" ctxBytes none
  let r ← from_joiner p joiner_secret context psk_secret
  pure { r with joiner_secret := joiner_secret }

/-- `KeySchedule::export_secret`: derive-secret from the exporter secret at
the caller's label, hash the caller's context with the suite hash, then
expand with the `"exported"` label at the requested length. -/
def export_secret (p : CipherSuiteProvider) (ks : KeySchedule) (label : String)
    (context : Bytes) (len : Nat) : Except String Bytes := do
  let secret ← kdf_derive_secret p ks.exporter_secret label
  let context_hash ← p.hash context
  kdf_expand_with_label p secret "exported" context_hash (some len)

/-! ## Membership tag (`aws-mls/src/group/membership_tag.rs`) -/

/-- Modelled from the spec: `FramedContentAuthData` of `message_signature.rs`
(not under `src/`) — a signature and, for Commit content, a confirmation
tag. -/
structure FramedContentAuthData where
  signature : Bytes
  confirmation_tag : Option Bytes
deriving Repr, DecidableEq

/-- Modelled from the spec: `AuthenticatedContent` of `message_signature.rs`
(not under `src/`): a wire-format tag, the serialized framed content body,
and the auth data. -/
structure AuthenticatedContent where
  wire_format : Nat
  content : Bytes
  auth : FramedContentAuthData
deriving Repr, DecidableEq

/-- Modelled from the spec: wire encoding of `FramedContentAuthData` — the
variable-length signature followed by the confirmation tag when present. -/
def encodeFramedContentAuthData (a : FramedContentAuthData) : Except String Bytes := do
  let s ← encodeByteVec a.signature
  match a.confirmation_tag with
  | none => pure s
  | some tag => (encodeByteVec tag).map (s ++ ·)

/-- Modelled from the spec:
`AuthenticatedContentTBS::from_authenticated_content` followed by its wire
encoding (`message_signature.rs` is not under `src/`) — the protocol
version, wire format and framed content, with the serialized group context
included when supplied. -/
def encodeAuthenticatedContentTBS (c : AuthenticatedContent)
    (context : Option GroupContext) (version : Nat) : Except String Bytes := do
  let ctxBytes ← match context with
    | none => pure ([] : Bytes)
    | some g => encodeGroupContext g
  pure (encodeU16 version ++ encodeU16 c.wire_format ++ c.content ++ ctxBytes)

/-- `AuthenticatedContentTBM::from_authenticated_content` then `mls_encode`:
the to-be-signed structure with the group context (at the context's
protocol version) followed by the auth data, fields concatenated by the
derived codec. -/
def encodeAuthenticatedContentTBM (c : AuthenticatedContent)
    (context : GroupContext) : Except String Bytes := do
  let tbs ← encodeAuthenticatedContentTBS c (some context) context.protocol_version
  let auth ← encodeFramedContentAuthData c.auth
  pure (tbs ++ auth)

/-- `MembershipTag::create`: serialize the TBM structure and MAC it under
the membership key with the suite provider. -/
def membershipTagCreate (p : CipherSuiteProvider) (c : AuthenticatedContent)
    (context : GroupContext) (membership_key : Bytes) : Except String Bytes := do
  let serialized_tbm ← encodeAuthenticatedContentTBM c context
  p.mac membership_key serialized_tbm

end Mls

namespace TreeKem

/-! ## Update-path validation (`src/tree_kem/update_path.rs`, the older
`aws-mls` crate in this repository) -/

abbrev Bytes := List Nat

/-- A tree leaf as `validate_update_path` observes it: the signing identity
and the HPKE public key (the further `LeafNode` fields feed only the leaf
validator, which is a modelled collaborator below). -/
structure LeafNode where
  signing_identity : Bytes
  public_key : Bytes
deriving Repr, DecidableEq

/-- `UpdatePathNode`: a public key plus encrypted path secrets. -/
structure UpdatePathNode where
  public_key : Bytes
  encrypted_path_secret : List Bytes
deriving Repr, DecidableEq

/-- `UpdatePath`: the sender's new leaf plus one node per filtered
direct-path step. -/
structure UpdatePath where
  leaf_node : LeafNode
  nodes : List UpdatePathNode
deriving Repr, DecidableEq

/-- `UpdatePathValidationError` of `update_path.rs`. -/
inductive UpdatePathValidationError where
  | LeafNodeValidationError
  | DifferentIdentity (leaf : Nat)
  | SameHpkeKey (leaf : Nat)
  | CredentialValidationError
  | NodeVecError
  | ExtensionError
  | TreeMathError
  | WrongPathLen (path : Nat) (direct : Nat)
deriving Repr, DecidableEq

/-- `ValidatedUpdatePath`. -/
structure ValidatedUpdatePath where
  leaf_node : LeafNode
  nodes : List UpdatePathNode
deriving Repr, DecidableEq

/-- Modelled from the spec: the collaborators `validate_update_path` calls
into that are not under `src/` — the identity provider's `identity`
resolution and the `LeafNodeValidator::check_if_valid` check (which also
covers the required-capabilities extension lookup). -/
structure UpdatePathEnv where
  identity : Bytes → Except String Bytes
  checkLeaf : LeafNode → Bytes → Except UpdatePathValidationError Unit

/-- The provisional state as `validate_update_path` observes it: the group
id, the tree's leaves, whether an external init is pending, and the
filtered direct path / co-path (`filtered_direct_path_co_path` lives in the
tree-math module, not under `src/`; it is carried here as a function of the
sender index, modelled from the spec's filtered-direct-path description). -/
structure ProvisionalState where
  group_id : Bytes
  leaves : List (Option LeafNode)
  external_init : Bool
  filteredDirectPathCoPath : Nat → Except String (List Nat)

/-- `NodeVec::borrow_as_leaf`: the leaf at the index, or a node-vec error
when the index is out of range or the leaf is blank. -/
def borrow_as_leaf (leaves : List (Option LeafNode)) (i : Nat) :
    Except UpdatePathValidationError LeafNode :=
  match leaves.get? i with
  | some (some l) => .ok l
  | _ => .error .NodeVecError

/-- `validate_update_path`: leaf validation, identity stability (unless
external init), changed HPKE key (unless external init), and path length
against the filtered direct path; on success the input path is returned
unchanged as a `ValidatedUpdatePath`. -/
def validate_update_path (env : UpdatePathEnv) (path : UpdatePath)
    (state : ProvisionalState) (sender : Nat) :
    Except UpdatePathValidationError ValidatedUpdatePath := do
  env.checkLeaf path.leaf_node state.group_id
  let existing_leaf ← borrow_as_leaf state.leaves sender
  let original_identity ←
    (env.identity existing_leaf.signing_identity).mapError
      fun _ => UpdatePathValidationError.CredentialValidationError
  let updated_identity ←
    (env.identity path.leaf_node.signing_identity).mapError
      fun _ => UpdatePathValidationError.CredentialValidationError
  if state.external_init = true ∨ original_identity = updated_identity then
    pure ()
  else
    throw (.DifferentIdentity sender)
  if state.external_init = true ∨ existing_leaf.public_key ≠ path.leaf_node.public_key then
    pure ()
  else
    throw (.SameHpkeKey sender)
  let path_copath ←
    (state.filteredDirectPathCoPath sender).mapError
      fun _ => UpdatePathValidationError.NodeVecError
  if path.nodes.length = path_copath.length then
    pure { leaf_node := path.leaf_node, nodes := path.nodes }
  else
    throw (.WrongPathLen path.nodes.length path_copath.length)

end TreeKem

namespace Ec

/-! ## NIST private-key import (`aws-mls-crypto-openssl/src/ec.rs`) -/

abbrev Bytes := List Nat

/-- `EcError` (the OpenSSL error stack is collapsed to one constructor). -/
inductive EcError where
  | OpensslError
  | InvalidKeyBytes
  | UnsupportedCipherSuite
deriving Repr, DecidableEq

/-- The `Curve` enum. -/
inductive Curve where
  | P256
  | P384
  | P521
  | X25519
  | Ed25519
  | X448
  | Ed448
deriving Repr, DecidableEq

/-- `nist_curve_id`: whether the curve dispatches to the NIST import path. -/
def nist_curve_id (c : Curve) : Bool :=
  match c with
  | .P256 => true
  | .P384 => true
  | .P521 => true
  | _ => false

/-- The group order OpenSSL reports for each NIST curve (the standard
orders of P-256, P-384 and P-521); other curves never reach the order
check. -/
def curveOrder (c : Curve) : Nat :=
  match c with
  | .P256 =>
    0xffffffff00000000ffffffffffffffffbce6faada7179e84f3b9cac2fc632551
  | .P384 =>
    0xffffffffffffffffffffffffffffffffffffffffffffffffc7634d81f4372ddf581a0db248b0a77aecec196accc52973
  | .P521 =>
    0x01fffffffffffffffffffffffffffffffffffffffffffffffffffffffffffffffa51868783bf2f966b7fcc0148f709a5d03bb5c9b8899c47aebb6fb71e91386409
  | _ => 0

/-- `BigNum::from_slice`: a big-endian unsigned integer. -/
def bytesToNat (b : Bytes) : Nat :=
  b.foldl (fun acc x => acc * 256 + x % 256) 0

/-- `private_key_from_bytes_nist`: build the scalar from the bytes, fetch
the group order, and reject unless `0 < sk_val < order`; the subsequent
OpenSSL key construction is outside the range check and modelled as
succeeding. -/
def private_key_from_bytes_nist (bytes : Bytes) (c : Curve) :
    Except EcError Unit :=
  if bytesToNat bytes < curveOrder c ∧ 0 < bytesToNat bytes then .ok ()
  else .error .InvalidKeyBytes

/-- `private_key_from_bytes`: NIST curves take the range-checked path;
other curves import raw bytes (modelled as succeeding). -/
def private_key_from_bytes (bytes : Bytes) (c : Curve) : Except EcError Unit :=
  if nist_curve_id c then private_key_from_bytes_nist bytes c
  else .ok ()

end Ec

namespace RustCrypto

/-! ## HMAC (`aws-mls-crypto-rustcrypto/src/mac.rs`) -/

abbrev Bytes := List Nat

/-- `HashError`. -/
inductive HashError where
  | InvalidHmacLength
  | UnsupportedCipherSuite
deriving Repr, DecidableEq

/-- The `Hash` enum of `mac.rs`. -/
inductive HashVariant where
  | Sha256
  | Sha384
  | Sha512
deriving Repr, DecidableEq

/-- The three concrete digests are external primitives (the `sha2` crate);
the embedding carries them as plain byte functions. -/
structure Digests where
  sha256 : Bytes → Bytes
  sha384 : Bytes → Bytes
  sha512 : Bytes → Bytes

/-- Internal block size of each digest, as `BlockSizeUser` reports it. -/
def blockSize (h : HashVariant) : Nat :=
  match h with
  | .Sha256 => 64
  | .Sha384 => 128
  | .Sha512 => 128

def digestOf (d : Digests) (h : HashVariant) : Bytes → Bytes :=
  match h with
  | .Sha256 => d.sha256
  | .Sha384 => d.sha384
  | .Sha512 => d.sha512

/-- Modelled from the `hmac` crate: `SimpleHmac::new_from_slice` accepts a
key of any length — an over-long key is first digested, and the key is then
zero-padded to the block size; it never fails. -/
def simpleHmacNewFromSlice (digest : Bytes → Bytes) (block : Nat)
    (key : Bytes) : Except HashError Bytes :=
  let k := if block < key.length then digest key else key
  .ok (k ++ List.replicate (block - k.length) 0)

/-- The RFC 2104 HMAC core over the padded key. -/
def hmacCore (digest : Bytes → Bytes) (paddedKey data : Bytes) : Bytes :=
  let ipad := paddedKey.map (fun b => Nat.xor b 0x36)
  let opad := paddedKey.map (fun b => Nat.xor b 0x5c)
  digest (opad ++ digest (ipad ++ data))

/-- `generic_generate_tag`: update with the data and finalize; it returns
`Ok` unconditionally. -/
def generic_generate_tag (digest : Bytes → Bytes) (paddedKey data : Bytes) :
    Except HashError Bytes :=
  .ok (hmacCore digest paddedKey data)

/-- `Hash::mac`: per variant, build the HMAC state from the key (mapping a
construction failure to `InvalidHmacLength`) and produce the tag. -/
def hashMac (d : Digests) (h : HashVariant) (key data : Bytes) :
    Except HashError Bytes := do
  let paddedKey ← simpleHmacNewFromSlice (digestOf d h) (blockSize h) key
  generic_generate_tag (digestOf d h) paddedKey data

end RustCrypto

namespace Engine

/-! ## Incoming-message processing (spec sections 4.H and 7)

Modelled from the spec: the group message processor
(`group/message_processor.rs`) is not under `src/`; only its integration
test `processing_message_from_self_returns_error` is.  The spec fixes the
behaviour: "`StateMismatch` — epoch or self-message (a group rejects its
own messages received back from the transport)" and "validation errors ...
leave the group's prior state unchanged". -/

/-- The error kinds the processor can raise on an incoming framed message;
`CantProcessMessageFromSelf` is the engine's StateMismatch-kind
self-message error asserted by the test. -/
inductive MlsError where
  | CantProcessMessageFromSelf
  | InvalidEpoch
deriving Repr, DecidableEq

/-- A group member's state: its epoch and its own leaf index. -/
structure Group where
  epoch : Nat
  member_index : Nat
deriving Repr, DecidableEq

/-- An incoming framed message as the processor inspects it: the sender's
leaf index, the epoch it was framed in, and whether it is a Commit. -/
structure MlsMessage where
  sender_index : Nat
  msg_epoch : Nat
  is_commit : Bool
deriving Repr, DecidableEq

/-- The Commit message a member produces in its current epoch, framed with
itself as the sender. -/
def commit_message (g : Group) : MlsMessage :=
  { sender_index := g.member_index, msg_epoch := g.epoch, is_commit := true }

/-- Modelled from the spec: `process_incoming_message` — reject a message
the group itself sent, reject a wrong-epoch message, and otherwise advance
the epoch on an accepted Commit; on any error the prior state is returned
unchanged. -/
def process_incoming_message (g : Group) (m : MlsMessage) :
    Group × Except MlsError Unit :=
  if m.sender_index = g.member_index then
    (g, .error .CantProcessMessageFromSelf)
  else if m.msg_epoch ≠ g.epoch then
    (g, .error .InvalidEpoch)
  else if m.is_commit then
    ({ g with epoch := g.epoch + 1 }, .ok ())
  else
    (g, .ok ())

end Engine

/-! ## Test fixtures

Concrete instances used to witness the theorems below on executable
inputs. -/

/-- A concrete test cipher-suite provider with a 2-byte extract size:
extract returns `[3, 3]`, expand returns the requested number of `7`s,
hashing returns `[9]`, and the MAC is the keyed concatenation. -/
def tp : Mls.CipherSuiteProvider :=
  { kdfExtract := fun _ _ => .ok [3, 3]
    kdfExpand := fun _ _ len => .ok (List.replicate len 7)
    kdfExtractSize := 2
    hash := fun _ => .ok [9]
    mac := fun key data => .ok (key ++ data) }

/-- A concrete group context. -/
def ctx0 : Mls.GroupContext :=
  { protocol_version := 1
    cipher_suite := 1
    group_id := [1]
    epoch := 0
    tree_hash := [2]
    confirmed_transcript_hash := [3]
    extensions := [] }

/-- A concrete prior key schedule. -/
def ks0 : Mls.KeySchedule :=
  { exporter_secret := [1, 1]
    authentication_secret := [1, 1]
    external_secret := [1, 1]
    membership_key := [1, 1]
    init_secret := [0, 0] }

/-- The derivation result `from_epoch_secret` produces under `tp`: every
derived secret is the 2-byte expansion `[7, 7]`. -/
def c2res : Mls.KeyScheduleDerivationResult :=
  { key_schedule :=
      { exporter_secret := [7, 7]
        authentication_secret := [7, 7]
        external_secret := [7, 7]
        membership_key := [7, 7]
        init_secret := [7, 7] }
    confirmation_key := [7, 7]
    joiner_secret := []
    epoch_secrets :=
      { resumption_secret := [7, 7]
        sender_data_secret := [7, 7]
        secret_tree_root := [7, 7] } }

/-- The derivation result `from_key_schedule` produces under `tp`: as
`c2res` but carrying the derived joiner secret. -/
def c8res : Mls.KeyScheduleDerivationResult :=
  { c2res with joiner_secret := [7, 7] }

/-- A concrete authenticated content. -/
def content0 : Mls.AuthenticatedContent :=
  { wire_format := 1
    content := [1, 2]
    auth := { signature := [4], confirmation_tag := some [5] } }

/-- The serialized TBS of `content0` under `ctx0`. -/
def c5tbs : Mls.Bytes :=
  (Mls.encodeAuthenticatedContentTBS content0 (some ctx0)
    ctx0.protocol_version).toOption.getD []

/-- The serialized auth data of `content0`. -/
def c5auth : Mls.Bytes :=
  (Mls.encodeFramedContentAuthData content0.auth).toOption.getD []

/-- A concrete update-path environment: identities resolve to themselves
and every leaf passes validation. -/
def env0 : TreeKem.UpdatePathEnv :=
  { identity := fun b => .ok b
    checkLeaf := fun _ _ => .ok () }

/-- A concrete provisional state with one occupied leaf and no external
init. -/
def state0 : TreeKem.ProvisionalState :=
  { group_id := [0]
    leaves := [some { signing_identity := [1], public_key := [2] }]
    external_init := false
    filteredDirectPathCoPath := fun _ => .ok [] }

/-- A concrete update path whose leaf carries a different identity than
`state0`'s leaf 0. -/
def path0 : TreeKem.UpdatePath :=
  { leaf_node := { signing_identity := [9], public_key := [8] }
    nodes := [] }

/-! ## Monad plumbing lemmas -/

@[simp]
theorem exceptBindOk {ε α β : Type} (a : α) (f : α → Except ε β) :
    (Except.ok a >>= f) = f a := rfl

@[simp]
theorem exceptBindErr {ε α β : Type} (e : ε) (f : α → Except ε β) :
    ((Except.error e : Except ε α) >>= f) = Except.error e := rfl

@[simp]
theorem exceptPureBind {ε α β : Type} (a : α) (f : α → Except ε β) :
    ((pure a : Except ε α) >>= f) = f a := rfl

@[simp]
theorem exceptMapErrorOk {ε ε' α : Type} (a : α) (f : ε → ε') :
    (Except.ok a : Except ε α).mapError f = Except.ok a := rfl

@[simp]
theorem exceptMapErrorErr {ε ε' α : Type} (e : ε) (f : ε → ε') :
    (Except.error e : Except ε α).mapError f = Except.error (f e) := rfl

@[simp]
theorem exceptThrowEq {ε α : Type} (e : ε) :
    (throw e : Except ε α) = Except.error e := rfl

@[simp]
theorem exceptPureEq {ε α : Type} (a : α) :
    (pure a : Except ε α) = Except.ok a := rfl

@[simp]
theorem exceptMapOkEq {ε α β : Type} (f : α → β) (a : α) :
    (Except.ok a : Except ε α).map f = Except.ok (f a) := rfl

@[simp]
theorem exceptMapErrEq {ε α β : Type} (f : α → β) (e : ε) :
    (Except.error e : Except ε α).map f = Except.error e := rfl

@[simp]
theorem exceptIsOkOk {ε α : Type} (a : α) :
    (Except.ok a : Except ε α).isOk = true := rfl

@[simp]
theorem exceptIsOkErr {ε α : Type} (e : ε) :
    (Except.error e : Except ε α).isOk = false := rfl

/-- Encoding a u16 ignores overflow bits: the Rust `as u16` cast commutes
with the encoder. -/
theorem encodeU16_mod (n : Nat) :
    Mls.encodeU16 (n % 65536) = Mls.encodeU16 n := by
  simp only [Mls.encodeU16, List.cons.injEq, and_true]
  constructor
  · omega
  · omega

/-- Passing the default length explicitly is the same as omitting it. -/
theorem expand_some_default (p : Mls.CipherSuiteProvider) (s : Mls.Bytes)
    (label : String) (context : Mls.Bytes) :
    Mls.kdf_expand_with_label p s label context (some p.kdfExtractSize) =
      Mls.kdf_expand_with_label p s label context none := rfl

/-- When the provider's `kdf_expand` honours the requested length, a
default-length expansion returns a secret of the extract size. -/
theorem kdf_expand_default_length (p : Mls.CipherSuiteProvider)
    (hexp : ∀ s i l out, p.kdfExpand s i l = .ok out → out.length = l)
    (s : Mls.Bytes) (lb : String) (c : Mls.Bytes) (out : Mls.Bytes)
    (h : Mls.kdf_expand_with_label p s lb c none = .ok out) :
    out.length = p.kdfExtractSize := by
  simp only [Mls.kdf_expand_with_label, Option.getD_none] at h
  cases he : (Mls.LabelStruct.new p.kdfExtractSize lb c).encode with
  | error e => rw [he] at h; simp at h
  | ok info =>
    rw [he, exceptBindOk] at h
    exact hexp s info p.kdfExtractSize out h

/-- The per-epoch secrets returned by `from_epoch_secret` are exactly the
label derivations from the epoch secret. -/
theorem from_epoch_secret_fields (p : Mls.CipherSuiteProvider)
    (es : Mls.Bytes) (r : Mls.KeyScheduleDerivationResult)
    (h : Mls.from_epoch_secret p es = .ok r) :
    Mls.kdf_derive_secret p es "sender data" =
      .ok r.epoch_secrets.sender_data_secret ∧
    Mls.kdf_derive_secret p es "encryption" =
      .ok r.epoch_secrets.secret_tree_root ∧
    Mls.kdf_derive_secret p es "exporter" =
      .ok r.key_schedule.exporter_secret ∧
    Mls.kdf_derive_secret p es "external" =
      .ok r.key_schedule.external_secret ∧
    Mls.kdf_derive_secret p es "authentication" =
      .ok r.key_schedule.authentication_secret ∧
    Mls.kdf_derive_secret p es "membership" =
      .ok r.key_schedule.membership_key ∧
    Mls.kdf_derive_secret p es "resumption" =
      .ok r.epoch_secrets.resumption_secret ∧
    Mls.kdf_derive_secret p es "init" = .ok r.key_schedule.init_secret ∧
    Mls.kdf_derive_secret p es "confirm" = .ok r.confirmation_key := by
  unfold Mls.from_epoch_secret at h
  simp only [Mls.secretsProducerDerive] at h
  cases h1 : Mls.kdf_derive_secret p es "resumption" with
  | error e => rw [h1] at h; simp at h
  | ok v1 =>
  rw [h1] at h; rw [exceptBindOk] at h
  cases h2 : Mls.kdf_derive_secret p es "sender data" with
  | error e => rw [h2] at h; simp at h
  | ok v2 =>
  rw [h2] at h; rw [exceptBindOk] at h
  cases h3 : Mls.kdf_derive_secret p es "encryption" with
  | error e => rw [h3] at h; simp at h
  | ok v3 =>
  rw [h3] at h; rw [exceptBindOk] at h
  cases h4 : Mls.kdf_derive_secret p es "exporter" with
  | error e => rw [h4] at h; simp at h
  | ok v4 =>
  rw [h4] at h; rw [exceptBindOk] at h
  cases h5 : Mls.kdf_derive_secret p es "authentication" with
  | error e => rw [h5] at h; simp at h
  | ok v5 =>
  rw [h5] at h; rw [exceptBindOk] at h
  cases h6 : Mls.kdf_derive_secret p es "external" with
  | error e => rw [h6] at h; simp at h
  | ok v6 =>
  rw [h6] at h; rw [exceptBindOk] at h
  cases h7 : Mls.kdf_derive_secret p es "membership" with
  | error e => rw [h7] at h; simp at h
  | ok v7 =>
  rw [h7] at h; rw [exceptBindOk] at h
  cases h8 : Mls.kdf_derive_secret p es "init" with
  | error e => rw [h8] at h; simp at h
  | ok v8 =>
  rw [h8] at h; rw [exceptBindOk] at h
  cases h9 : Mls.kdf_derive_secret p es "confirm" with
  | error e => rw [h9] at h; simp at h
  | ok v9 =>
  rw [h9] at h; rw [exceptBindOk] at h
  rw [exceptPureEq, Except.ok.injEq] at h
  subst h
  exact ⟨rfl, rfl, rfl, rfl, rfl, rfl, rfl, rfl, rfl⟩

/-- `from_key_schedule` in sequenced normal form: the two extracts and two
labelled expansions, then the per-epoch derivations, with the joiner
secret carried into the result. -/
theorem from_key_schedule_eq (p : Mls.CipherSuiteProvider)
    (last : Mls.KeySchedule) (commit_secret : Mls.Bytes)
    (ctx : Mls.GroupContext) (psk_secret : Mls.Bytes) :
    Mls.from_key_schedule p last commit_secret ctx psk_secret =
      (p.kdfExtract last.init_secret commit_secret >>= fun joiner_seed =>
        Mls.encodeGroupContext ctx >>= fun ctxBytes =>
          Mls.kdf_expand_with_label p joiner_seed "joiner" ctxBytes
              none >>= fun joiner_secret =>
            p.kdfExtract joiner_secret psk_secret >>= fun pre_epoch =>
              Mls.kdf_expand_with_label p pre_epoch "epoch" ctxBytes
                  none >>= fun epoch_secret =>
                (Mls.from_epoch_secret p epoch_secret).map fun r =>
                  { r with joiner_secret := joiner_secret }) := by
  unfold Mls.from_key_schedule Mls.from_joiner Mls.get_pre_epoch_secret
  cases h1 : p.kdfExtract last.init_secret commit_secret with
  | error e => simp
  | ok joiner_seed =>
  simp only [exceptBindOk]
  cases h2 : Mls.encodeGroupContext ctx with
  | error e => simp
  | ok ctxBytes =>
  simp only [exceptBindOk]
  cases h3 : Mls.kdf_expand_with_label p joiner_seed "joiner" ctxBytes
      none with
  | error e => simp
  | ok joiner_secret =>
  simp only [exceptBindOk]
  cases h4 : p.kdfExtract joiner_secret psk_secret with
  | error e => simp
  | ok pre_epoch =>
  simp only [exceptBindOk]
  cases h5 : Mls.kdf_expand_with_label p pre_epoch "epoch" ctxBytes
      none with
  | error e => simp
  | ok epoch_secret =>
  simp only [exceptBindOk]
  cases h6 : Mls.from_epoch_secret p epoch_secret with
  | error e => simp
  | ok r => simp

/-! ## Claim theorems -/

/-- C3: `kdf_expand_with_label` calls the provider's `kdf_expand` with info
equal to the wire encoding of the `Label` structure — the length as a u16,
the label carrying the bytes `"MLS 1.0 "` before it, then the context —
with the length defaulting to the KDF extract size when not given; and
`kdf_derive_secret s L` is exactly `kdf_expand_with_label` at `L`, the
empty context and the default length. -/
theorem kdf_expand_with_label_info_encoding (p : Mls.CipherSuiteProvider)
    (secret : Mls.Bytes) (label : String) (context : Mls.Bytes)
    (len : Option Nat) :
    (Mls.kdf_expand_with_label p secret label context len =
      (Mls.encodeByteVec (Mls.strBytes "MLS 1.0 " ++ Mls.strBytes label) >>=
        fun lb => Mls.encodeByteVec context >>= fun cb =>
          p.kdfExpand secret
            (Mls.encodeU16 (len.getD p.kdfExtractSize) ++ lb ++ cb)
            (len.getD p.kdfExtractSize))) ∧
    Mls.kdf_derive_secret p secret label =
      Mls.kdf_expand_with_label p secret label [] none := by
  constructor
  · unfold Mls.kdf_expand_with_label Mls.LabelStruct.encode Mls.LabelStruct.new
    cases h1 : Mls.encodeByteVec (Mls.strBytes "MLS 1.0 " ++ Mls.strBytes label) with
    | error e => simp [h1]
    | ok lb =>
      cases h2 : Mls.encodeByteVec context with
      | error e => simp [h1, h2]
      | ok cb => simp [h1, h2, encodeU16_mod]
  · rfl

/-- C6: `export_secret` is
`ExpandWithLabel(DeriveSecret(exporter_secret, label), "exported",
H(context), len)` — the derive-secret is taken from the stored per-epoch
exporter secret at the caller's label, the context hash is the suite hash
of the caller-supplied context, and the final expansion uses the requested
length. -/
theorem export_secret_spec (p : Mls.CipherSuiteProvider)
    (ks : Mls.KeySchedule) (label : String) (context : Mls.Bytes)
    (len : Nat) :
    Mls.export_secret p ks label context len =
      (Mls.kdf_derive_secret p ks.exporter_secret label >>= fun secret =>
        p.hash context >>= fun context_hash =>
          Mls.kdf_expand_with_label p secret "exported" context_hash
            (some len)) := rfl

/-- C9: a member that processes its own Commit message back gets the
engine's cannot-process-message-from-self error (the StateMismatch kind)
and its epoch is unchanged. -/
theorem own_commit_rejected (g : Engine.Group) :
    Engine.process_incoming_message g (Engine.commit_message g) =
      (g, Except.error Engine.MlsError.CantProcessMessageFromSelf) ∧
    (Engine.process_incoming_message g (Engine.commit_message g)).1.epoch =
      g.epoch := by
  constructor <;>
    simp [Engine.process_incoming_message, Engine.commit_message]

/-- C10: for every hash variant and all key and message byte strings,
`Hash::mac` returns `Ok` — the `InvalidHmacLength` branch is unreachable
because `SimpleHmac::new_from_slice` accepts keys of any length. -/
theorem hash_mac_total (d : RustCrypto.Digests) (h : RustCrypto.HashVariant)
    (key data : RustCrypto.Bytes) :
    (RustCrypto.hashMac d h key data).isOk = true := by
  cases h <;> rfl

/-- C7: for the P-256, P-384 and P-521 import path, a scalar whose
big-endian value is at least the curve group order, or zero, is rejected
with `InvalidKeyBytes`, and a scalar strictly between zero and the order
passes the range check. -/
theorem nist_scalar_range_check (bytes : Ec.Bytes) (c : Ec.Curve)
    (hc : c = .P256 ∨ c = .P384 ∨ c = .P521) :
    ((Ec.curveOrder c ≤ Ec.bytesToNat bytes ∨ Ec.bytesToNat bytes = 0) →
      Ec.private_key_from_bytes bytes c = .error .InvalidKeyBytes) ∧
    ((0 < Ec.bytesToNat bytes ∧ Ec.bytesToNat bytes < Ec.curveOrder c) →
      Ec.private_key_from_bytes bytes c = .ok ()) := by
  have hred : Ec.private_key_from_bytes bytes c =
      Ec.private_key_from_bytes_nist bytes c := by
    rcases hc with h | h | h <;> subst h <;> rfl
  rcases hc with h | h | h <;> subst h <;>
    refine ⟨fun hv => ?_, fun hv => ?_⟩ <;>
      rw [hred] <;> unfold Ec.private_key_from_bytes_nist <;>
        simp only [Ec.curveOrder] at hv ⊢ <;>
          split <;>
            first
              | rfl
              | (exfalso; omega)

/-- C7 witness: the zero scalar is rejected and the scalar 1 passes on
P-256. -/
theorem nist_scalar_range_check_witness :
    Ec.private_key_from_bytes [0] Ec.Curve.P256 =
      .error Ec.EcError.InvalidKeyBytes ∧
    Ec.private_key_from_bytes [1] Ec.Curve.P256 = .ok () :=
  ⟨(nist_scalar_range_check [0] .P256 (Or.inl rfl)).1 (by decide),
   (nist_scalar_range_check [1] .P256 (Or.inl rfl)).2 (by decide)⟩

/-- C2: every per-epoch secret `from_epoch_secret` returns is
`DeriveSecret(epoch_secret, L)` for its label — `"sender data"` for the
sender-data secret, `"encryption"` for the secret-tree root, `"exporter"`,
`"external"`, `"authentication"`, `"membership"`, `"resumption"`, `"init"`
and `"confirm"` for the confirmation key — and the returned key schedule's
init secret is the `"init"` derivation. -/
theorem from_epoch_secret_derives_labels (p : Mls.CipherSuiteProvider)
    (es : Mls.Bytes) (r : Mls.KeyScheduleDerivationResult)
    (h : Mls.from_epoch_secret p es = .ok r) :
    Mls.kdf_derive_secret p es "sender data" =
      .ok r.epoch_secrets.sender_data_secret ∧
    Mls.kdf_derive_secret p es "encryption" =
      .ok r.epoch_secrets.secret_tree_root ∧
    Mls.kdf_derive_secret p es "exporter" =
      .ok r.key_schedule.exporter_secret ∧
    Mls.kdf_derive_secret p es "external" =
      .ok r.key_schedule.external_secret ∧
    Mls.kdf_derive_secret p es "authentication" =
      .ok r.key_schedule.authentication_secret ∧
    Mls.kdf_derive_secret p es "membership" =
      .ok r.key_schedule.membership_key ∧
    Mls.kdf_derive_secret p es "resumption" =
      .ok r.epoch_secrets.resumption_secret ∧
    Mls.kdf_derive_secret p es "init" = .ok r.key_schedule.init_secret ∧
    Mls.kdf_derive_secret p es "confirm" = .ok r.confirmation_key :=
  from_epoch_secret_fields p es r h

/-- C2 witness: under the concrete provider every derived secret is the
2-byte expansion `[7, 7]`. -/
theorem from_epoch_secret_derives_labels_witness :
    Mls.kdf_derive_secret tp [1] "sender data" = .ok [7, 7] ∧
    Mls.kdf_derive_secret tp [1] "encryption" = .ok [7, 7] ∧
    Mls.kdf_derive_secret tp [1] "exporter" = .ok [7, 7] ∧
    Mls.kdf_derive_secret tp [1] "external" = .ok [7, 7] ∧
    Mls.kdf_derive_secret tp [1] "authentication" = .ok [7, 7] ∧
    Mls.kdf_derive_secret tp [1] "membership" = .ok [7, 7] ∧
    Mls.kdf_derive_secret tp [1] "resumption" = .ok [7, 7] ∧
    Mls.kdf_derive_secret tp [1] "init" = .ok [7, 7] ∧
    Mls.kdf_derive_secret tp [1] "confirm" = .ok [7, 7] :=
  from_epoch_secret_derives_labels tp [1] c2res (by rfl)

/-- C5: the membership tag is the provider MAC, under the membership key,
of the wire encoding of `AuthenticatedContentTBM` — the content's
to-be-signed structure with the group context included, followed by its
auth data. -/
theorem membership_tag_is_mac_over_tbm (p : Mls.CipherSuiteProvider)
    (c : Mls.AuthenticatedContent) (ctx : Mls.GroupContext)
    (membership_key : Mls.Bytes) (tbs authData : Mls.Bytes)
    (h1 : Mls.encodeAuthenticatedContentTBS c (some ctx)
            ctx.protocol_version = .ok tbs)
    (h2 : Mls.encodeFramedContentAuthData c.auth = .ok authData) :
    Mls.membershipTagCreate p c ctx membership_key =
      p.mac membership_key (tbs ++ authData) := by
  unfold Mls.membershipTagCreate Mls.encodeAuthenticatedContentTBM
  rw [h1, exceptBindOk, h2, exceptBindOk, exceptPureEq, exceptBindOk]

/-- C5 witness: the tag of the concrete content under the concatenating
MAC. -/
theorem membership_tag_is_mac_over_tbm_witness :
    Mls.membershipTagCreate tp content0 ctx0 [9] =
      tp.mac [9] (c5tbs ++ c5auth) :=
  membership_tag_is_mac_over_tbm tp content0 ctx0 [9] c5tbs c5auth
    (by rfl) (by rfl)

/-- C1: `from_key_schedule` derives the new epoch by exactly the four
steps `joiner_seed = Extract(init_secret_n, commit_secret)`,
`joiner_secret = ExpandWithLabel(joiner_seed, "joiner", serialized
context, Nh)`, `pre_epoch = Extract(joiner_secret, psk_secret)`,
`epoch_secret = ExpandWithLabel(pre_epoch, "epoch", serialized context,
Nh)` with `Nh` the provider's KDF extract size, continuing into
`from_epoch_secret` and returning the joiner secret; and it errors exactly
when one of the provider calls or the context encoding fails. -/
theorem from_key_schedule_four_step_ladder (p : Mls.CipherSuiteProvider)
    (last : Mls.KeySchedule) (commit_secret : Mls.Bytes)
    (ctx : Mls.GroupContext) (psk_secret : Mls.Bytes) :
    (Mls.from_key_schedule p last commit_secret ctx psk_secret =
      (p.kdfExtract last.init_secret commit_secret >>= fun joiner_seed =>
        Mls.encodeGroupContext ctx >>= fun ctxBytes =>
          Mls.kdf_expand_with_label p joiner_seed "joiner" ctxBytes
              (some p.kdfExtractSize) >>= fun joiner_secret =>
            p.kdfExtract joiner_secret psk_secret >>= fun pre_epoch =>
              Mls.kdf_expand_with_label p pre_epoch "epoch" ctxBytes
                  (some p.kdfExtractSize) >>= fun epoch_secret =>
                (Mls.from_epoch_secret p epoch_secret).map fun r =>
                  { r with joiner_secret := joiner_secret })) ∧
    ((Mls.from_key_schedule p last commit_secret ctx psk_secret).isOk =
        true ↔
      ∃ joiner_seed ctxBytes joiner_secret pre_epoch epoch_secret,
        p.kdfExtract last.init_secret commit_secret = .ok joiner_seed ∧
        Mls.encodeGroupContext ctx = .ok ctxBytes ∧
        Mls.kdf_expand_with_label p joiner_seed "joiner" ctxBytes none =
          .ok joiner_secret ∧
        p.kdfExtract joiner_secret psk_secret = .ok pre_epoch ∧
        Mls.kdf_expand_with_label p pre_epoch "epoch" ctxBytes none =
          .ok epoch_secret ∧
        (Mls.from_epoch_secret p epoch_secret).isOk = true) := by
  have heq := from_key_schedule_eq p last commit_secret ctx psk_secret
  constructor
  · simp only [expand_some_default]
    exact heq
  · rw [heq]
    cases h1 : p.kdfExtract last.init_secret commit_secret with
    | error e => simp [h1]
    | ok joiner_seed =>
    simp only [exceptBindOk]
    cases h2 : Mls.encodeGroupContext ctx with
    | error e => simp [h1, h2]
    | ok ctxBytes =>
    simp only [exceptBindOk]
    cases h3 : Mls.kdf_expand_with_label p joiner_seed "joiner" ctxBytes
        none with
    | error e => simp [h1, h2, h3]
    | ok joiner_secret =>
    simp only [exceptBindOk]
    cases h4 : p.kdfExtract joiner_secret psk_secret with
    | error e => simp [h1, h2, h3, h4]
    | ok pre_epoch =>
    simp only [exceptBindOk]
    cases h5 : Mls.kdf_expand_with_label p pre_epoch "epoch" ctxBytes
        none with
    | error e => simp [h1, h2, h3, h4, h5]
    | ok epoch_secret =>
    simp only [exceptBindOk]
    cases h6 : Mls.from_epoch_secret p epoch_secret with
    | error e => simp [h1, h2, h3, h4, h5, h6]
    | ok r => simp [h1, h2, h3, h4, h5, h6]

/-- C4: for an occupied sender leaf whose leaf node passes validation and
whose identities resolve, `validate_update_path` fails with
`DifferentIdentity` when there is no external init and the resolved
identities differ; fails with `SameHpkeKey` when there is no external init,
the identities agree and the existing leaf's HPKE key equals the path
leaf's key; fails with `WrongPathLen` when the earlier checks pass and
`path.nodes` has a different length than the sender's filtered direct
path; and on success returns a `ValidatedUpdatePath` whose `leaf_node` and
`nodes` are those of the input path. -/
theorem validate_update_path_spec (env : TreeKem.UpdatePathEnv)
    (path : TreeKem.UpdatePath) (state : TreeKem.ProvisionalState)
    (sender : Nat) (existing : TreeKem.LeafNode) (origId updId : TreeKem.Bytes)
    (hleaf : env.checkLeaf path.leaf_node state.group_id = .ok ())
    (hocc : TreeKem.borrow_as_leaf state.leaves sender = .ok existing)
    (hid1 : env.identity existing.signing_identity = .ok origId)
    (hid2 : env.identity path.leaf_node.signing_identity = .ok updId) :
    (state.external_init = false → origId ≠ updId →
      TreeKem.validate_update_path env path state sender =
        .error (.DifferentIdentity sender)) ∧
    (state.external_init = false → origId = updId →
      existing.public_key = path.leaf_node.public_key →
      TreeKem.validate_update_path env path state sender =
        .error (.SameHpkeKey sender)) ∧
    (∀ copath, state.filteredDirectPathCoPath sender = .ok copath →
      path.nodes.length ≠ copath.length →
      (state.external_init = true ∨
        (origId = updId ∧ existing.public_key ≠ path.leaf_node.public_key)) →
      TreeKem.validate_update_path env path state sender =
        .error (.WrongPathLen path.nodes.length copath.length)) ∧
    (∀ r, TreeKem.validate_update_path env path state sender = .ok r →
      r.leaf_node = path.leaf_node ∧ r.nodes = path.nodes) := by
  refine ⟨fun hext hne => ?_, fun hext heq hkey => ?_,
    fun copath hcop hlen hpass => ?_, fun r hr => ?_⟩
  · simp [TreeKem.validate_update_path, hleaf, hocc, hid1, hid2, hext, hne]
  · simp [TreeKem.validate_update_path, hleaf, hocc, hid1, hid2, hext, heq,
      hkey]
  · rcases hpass with hext | ⟨heq, hkey⟩
    · simp [TreeKem.validate_update_path, hleaf, hocc, hid1, hid2, hext,
        hcop, hlen]
    · simp [TreeKem.validate_update_path, hleaf, hocc, hid1, hid2, heq, hkey,
        hcop, hlen]
  · simp only [TreeKem.validate_update_path, hleaf, hocc, hid1, hid2,
      exceptBindOk, exceptMapErrorOk, exceptPureBind, exceptPureEq,
      exceptThrowEq, exceptBindErr] at hr
    split at hr
    case isFalse => simp at hr
    split at hr
    case isFalse => simp at hr
    cases hc : state.filteredDirectPathCoPath sender with
    | error e => rw [hc] at hr; simp at hr
    | ok copath =>
      rw [hc] at hr
      simp only [exceptMapErrorOk, exceptBindOk] at hr
      split at hr
      · simp only [exceptPureEq, Except.ok.injEq] at hr
        subst hr
        exact ⟨rfl, rfl⟩
      · simp at hr

/-- C4 witness: on the concrete one-leaf state with differing identities
the validator reports `DifferentIdentity` for leaf 0. -/
theorem validate_update_path_spec_witness :
    TreeKem.validate_update_path env0 path0 state0 0 =
      .error (.DifferentIdentity 0) :=
  (validate_update_path_spec env0 path0 state0 0
      { signing_identity := [1], public_key := [2] } [1] [9]
      (by rfl) (by rfl) (by rfl) (by rfl)).1 (by rfl) (by decide)

/-- C8: when the provider's `kdf_expand` honours the requested length and
its `kdf_extract` returns extract-sized output, every default-length
expansion (hence the epoch secret) and every secret in the result of
`from_key_schedule` — the joiner secret, the per-epoch secrets of the key
schedule including the init secret, the confirmation key and the epoch
secrets — has length equal to the suite's KDF extract size. -/
theorem key_schedule_secret_lengths (p : Mls.CipherSuiteProvider)
    (last : Mls.KeySchedule) (commit_secret : Mls.Bytes)
    (ctx : Mls.GroupContext) (psk_secret : Mls.Bytes)
    (hexp : ∀ s i l out, p.kdfExpand s i l = .ok out → out.length = l)
    (hext : ∀ s i out, p.kdfExtract s i = .ok out →
      out.length = p.kdfExtractSize) :
    (∀ s lb c out, Mls.kdf_expand_with_label p s lb c none = .ok out →
      out.length = p.kdfExtractSize) ∧
    (∀ r, Mls.from_key_schedule p last commit_secret ctx psk_secret =
        .ok r →
      r.joiner_secret.length = p.kdfExtractSize ∧
      r.key_schedule.exporter_secret.length = p.kdfExtractSize ∧
      r.key_schedule.authentication_secret.length = p.kdfExtractSize ∧
      r.key_schedule.external_secret.length = p.kdfExtractSize ∧
      r.key_schedule.membership_key.length = p.kdfExtractSize ∧
      r.key_schedule.init_secret.length = p.kdfExtractSize ∧
      r.confirmation_key.length = p.kdfExtractSize ∧
      r.epoch_secrets.resumption_secret.length = p.kdfExtractSize ∧
      r.epoch_secrets.sender_data_secret.length = p.kdfExtractSize ∧
      r.epoch_secrets.secret_tree_root.length = p.kdfExtractSize) := by
  refine ⟨fun s lb c out h => kdf_expand_default_length p hexp s lb c out h,
    fun r hr => ?_⟩
  rw [from_key_schedule_eq] at hr
  cases h1 : p.kdfExtract last.init_secret commit_secret with
  | error e => rw [h1] at hr; simp at hr
  | ok joiner_seed =>
  rw [h1] at hr; rw [exceptBindOk] at hr
  cases h2 : Mls.encodeGroupContext ctx with
  | error e => rw [h2] at hr; simp at hr
  | ok ctxBytes =>
  rw [h2] at hr; rw [exceptBindOk] at hr
  cases h3 : Mls.kdf_expand_with_label p joiner_seed "joiner" ctxBytes
      none with
  | error e => rw [h3] at hr; simp at hr
  | ok joiner_secret =>
  rw [h3] at hr; rw [exceptBindOk] at hr
  cases h4 : p.kdfExtract joiner_secret psk_secret with
  | error e => rw [h4] at hr; simp at hr
  | ok pre_epoch =>
  rw [h4] at hr; rw [exceptBindOk] at hr
  cases h5 : Mls.kdf_expand_with_label p pre_epoch "epoch" ctxBytes
      none with
  | error e => rw [h5] at hr; simp at hr
  | ok epoch_secret =>
  rw [h5] at hr; rw [exceptBindOk] at hr
  cases h6 : Mls.from_epoch_secret p epoch_secret with
  | error e => rw [h6] at hr; simp at hr
  | ok r0 =>
  rw [h6, exceptMapOkEq, Except.ok.injEq] at hr
  subst hr
  obtain ⟨f1, f2, f3, f4, f5, f6, f7, f8, f9⟩ :=
    from_epoch_secret_fields p epoch_secret r0 h6
  exact ⟨kdf_expand_default_length p hexp _ _ _ _ h3,
    kdf_expand_default_length p hexp _ _ _ _ f3,
    kdf_expand_default_length p hexp _ _ _ _ f5,
    kdf_expand_default_length p hexp _ _ _ _ f4,
    kdf_expand_default_length p hexp _ _ _ _ f6,
    kdf_expand_default_length p hexp _ _ _ _ f8,
    kdf_expand_default_length p hexp _ _ _ _ f9,
    kdf_expand_default_length p hexp _ _ _ _ f7,
    kdf_expand_default_length p hexp _ _ _ _ f1,
    kdf_expand_default_length p hexp _ _ _ _ f2⟩

/-- C8 witness: on the concrete provider, whose extract size is 2, every
secret of the concrete derivation has length 2. -/
theorem key_schedule_secret_lengths_witness :
    c8res.joiner_secret.length = tp.kdfExtractSize ∧
    c8res.key_schedule.exporter_secret.length = tp.kdfExtractSize ∧
    c8res.key_schedule.authentication_secret.length = tp.kdfExtractSize ∧
    c8res.key_schedule.external_secret.length = tp.kdfExtractSize ∧
    c8res.key_schedule.membership_key.length = tp.kdfExtractSize ∧
    c8res.key_schedule.init_secret.length = tp.kdfExtractSize ∧
    c8res.confirmation_key.length = tp.kdfExtractSize ∧
    c8res.epoch_secrets.resumption_secret.length = tp.kdfExtractSize ∧
    c8res.epoch_secrets.sender_data_secret.length = tp.kdfExtractSize ∧
    c8res.epoch_secrets.secret_tree_root.length = tp.kdfExtractSize :=
  (key_schedule_secret_lengths tp ks0 [5] ctx0 [6]
      (by intro s i l out h; injection h with h; subst h; simp)
      (by intro s i out h; injection h with h; subst h; rfl)).2
    c8res (by rfl)

